import Mathlib

/-!
Verification of the request-validation and response-normalization layer of a
TypeScript blog backend (Express + Zod).  The definitions below are shallow
embeddings of the functions in `src/utils/apiResponse.ts`,
`src/middlewares/validate.ts`, `src/middlewares/errorHandler.ts`,
`src/utils/errors.ts` and the Zod schemas in `src/validators/`.

JavaScript numbers are modelled as exact rationals together with the special
values `Infinity`, `-Infinity` and `NaN` (floating-point rounding is irrelevant
for the integer-sized values this layer manipulates).
-/

namespace Srv

/-- A JavaScript number: a finite value (exact rational) or one of the IEEE
special values produced by JS arithmetic such as division by zero. -/
inductive JsNum where
  | num (q : ℚ)
  | inf
  | negInf
  | nan
deriving DecidableEq, Repr

/-- JS division `a / b`, including the division-by-zero and NaN cases.  The
finite case is written with `Rat.divInt` (on cross-multiplied numerators and
denominators) so that it evaluates definitionally; `jsDiv_num` below proves
it equal to rational division. -/
def jsDiv : JsNum → JsNum → JsNum
  | .nan, _ => .nan
  | _, .nan => .nan
  | .num a, .num b =>
      if b = 0 then (if a = 0 then .nan else if 0 < a then .inf else .negInf)
      else .num (Rat.divInt (a.num * b.den) (b.num * a.den))
  | .num _, .inf => .num 0
  | .num _, .negInf => .num 0
  | .inf, .inf => .nan
  | .inf, .negInf => .nan
  | .negInf, .inf => .nan
  | .negInf, .negInf => .nan
  | .inf, .num b => if 0 ≤ b then .inf else .negInf
  | .negInf, .num b => if 0 ≤ b then .negInf else .inf

/-- The ceiling of a rational, computed with integer division (this
evaluates definitionally; `ratCeil_eq_ceil` below proves it equal to the
mathematical ceiling `⌈q⌉`). -/
def ratCeil (q : ℚ) : ℤ := -(-q.num / (q.den : ℤ))

/-- JS `Math.ceil`. -/
def jsCeil : JsNum → JsNum
  | .num q => .num ((ratCeil q : ℤ) : ℚ)
  | .inf => .inf
  | .negInf => .negInf
  | .nan => .nan

/-- JS `Math.min` on two arguments (NaN-propagating). -/
def jsMin : JsNum → JsNum → JsNum
  | .nan, _ => .nan
  | _, .nan => .nan
  | .negInf, _ => .negInf
  | _, .negInf => .negInf
  | .num a, .num b => .num (min a b)
  | .num a, .inf => .num a
  | .inf, .num b => .num b
  | .inf, .inf => .inf

/-- JS `Math.max` on two arguments (NaN-propagating). -/
def jsMax : JsNum → JsNum → JsNum
  | .nan, _ => .nan
  | _, .nan => .nan
  | .inf, _ => .inf
  | _, .inf => .inf
  | .num a, .num b => .num (max a b)
  | .num a, .negInf => .num a
  | .negInf, .num b => .num b
  | .negInf, .negInf => .negInf

/-- JS truthiness of a number: `0` and `NaN` are falsy. -/
def jsTruthy : JsNum → Bool
  | .num q => q ≠ 0
  | .nan => false
  | _ => true

/-- JS `a || b` on numbers. -/
def jsOr (a b : JsNum) : JsNum := if jsTruthy a then a else b

/-- JS `a < b` (comparisons involving NaN are false). -/
def jsLtB : JsNum → JsNum → Bool
  | .nan, _ => false
  | _, .nan => false
  | .num a, .num b => a < b
  | .num _, .inf => true
  | .num _, .negInf => false
  | .inf, _ => false
  | .negInf, .negInf => false
  | .negInf, _ => true

/-- A JS number is finite iff it is neither an infinity nor NaN. -/
def isFiniteJs : JsNum → Bool
  | .num _ => true
  | _ => false

/-- JS `Number.isInteger`. -/
def isIntegerJs : JsNum → Bool
  | .num q => q.den = 1
  | _ => false

/-- Models `value >= n` for a rational bound `n` (used by numeric `min` checks). -/
def numGeB (x : JsNum) (n : ℚ) : Bool :=
  match x with
  | .num q => n ≤ q
  | .inf => true
  | _ => false

/-- Models `value <= n` for a rational bound `n` (used by numeric `max` checks). -/
def numLeB (x : JsNum) (n : ℚ) : Bool :=
  match x with
  | .num q => q ≤ n
  | .negInf => true
  | _ => false

/-- Models `PaginationMeta` from `src/types/response.types.ts`. -/
structure PaginationMeta where
  currentPage : JsNum
  perPage : JsNum
  totalItems : JsNum
  totalPages : JsNum
  hasNextPage : Bool
  hasPreviousPage : Bool
deriving DecidableEq, Repr

/-- Models `calculatePagination` from `src/utils/apiResponse.ts`:
`totalPages = Math.ceil(totalItems / limit)`,
`currentPage = Math.max(1, Math.min(page, totalPages || 1))`.
The TS defaults `page = 1`, `limit = 10` apply only when an argument is
omitted at a call site; here all arguments are explicit. -/
def calculatePagination (totalItems page limit : JsNum) : PaginationMeta :=
  let totalPages := jsCeil (jsDiv totalItems limit)
  let currentPage := jsMax (.num 1) (jsMin page (jsOr totalPages (.num 1)))
  { currentPage := currentPage
    perPage := limit
    totalItems := totalItems
    totalPages := totalPages
    hasNextPage := jsLtB currentPage totalPages
    hasPreviousPage := jsLtB (.num 1) currentPage }

/-- One `{field, message}` entry (`ApiError` in `src/types/response.types.ts`). -/
structure ApiError where
  field : String
  message : String
deriving DecidableEq, Repr

/-- The response context at send time: the timestamp produced by
`new Date().toISOString()` and the request URL fields read for `path`. -/
structure Res where
  timestampNow : String
  originalUrl : Option String
  url : Option String
deriving DecidableEq, Repr

/-- JS `a || b` on optional strings (the empty string is falsy). -/
def strOr (a b : Option String) : Option String :=
  match a with
  | some s => if s = "" then b else some s
  | none => b

/-- The JSON envelope as emitted on the wire.  `SuccessResponse` has no
`errors` key and `ErrorResponse` has no `data`/`pagination` key; a single
record with optional fields represents both, `none` meaning the key is
absent from the serialized JSON (JSON.stringify drops `undefined`). -/
structure Envelope (T : Type) where
  success : Bool
  message : String
  data : Option T
  pagination : Option PaginationMeta
  errors : Option (List ApiError)
  timestamp : String
  path : Option String

/-- An HTTP response: status code plus envelope body. -/
structure HttpResponse (T : Type) where
  status : ℤ
  body : Envelope T

/-- Models `sendSuccess` from `src/utils/apiResponse.ts`.  The `pagination` key is
added only when the argument is supplied (`if (pagination)`; an object is
always truthy). -/
def sendSuccess {T : Type} (res : Res) (statusCode : ℤ) (message : String)
    (data : Option T) (pagination : Option PaginationMeta) : HttpResponse T :=
  { status := statusCode
    body :=
      { success := true
        message := message
        data := data
        pagination := pagination
        errors := none
        timestamp := res.timestampNow
        path := strOr res.originalUrl res.url } }

/-- Models `sendError` from `src/utils/apiResponse.ts`.  The `errors` key is added
only when the argument is supplied and non-empty
(`if (errors && errors.length > 0)`). -/
def sendError {T : Type} (res : Res) (statusCode : ℤ) (message : String)
    (errors : Option (List ApiError)) : HttpResponse T :=
  { status := statusCode
    body :=
      { success := false
        message := message
        data := none
        pagination := none
        errors :=
          match errors with
          | some l => if 0 < l.length then some l else none
          | none => none
        timestamp := res.timestampNow
        path := strOr res.originalUrl res.url } }

/-- Models `sendPaginatedSuccess`: recomputes `hasNextPage`/`hasPreviousPage` from
the supplied counts before delegating to `sendSuccess` at status 200. -/
def sendPaginatedSuccess {T : Type} (res : Res) (message : String)
    (data : List T) (pagination : PaginationMeta) : HttpResponse (List T) :=
  let enriched : PaginationMeta :=
    { pagination with
      hasNextPage := jsLtB pagination.currentPage pagination.totalPages
      hasPreviousPage := jsLtB (.num 1) pagination.currentPage }
  sendSuccess res 200 message (some data) (some enriched)

/-- Models `sendCreated`: success fixed at 201, no pagination. -/
def sendCreated {T : Type} (res : Res) (message : String) (data : T) :
    HttpResponse T :=
  sendSuccess res 201 message (some data) none

/-- Models `sendBadRequest` (400). -/
def sendBadRequest {T : Type} (res : Res) (message : String)
    (errors : Option (List ApiError)) : HttpResponse T :=
  sendError res 400 message errors

/-- Models `sendUnauthorized` (401); the `errors` argument is never passed. -/
def sendUnauthorized {T : Type} (res : Res) (message : String) : HttpResponse T :=
  sendError res 401 message none

/-- Models `sendForbidden` (403). -/
def sendForbidden {T : Type} (res : Res) (message : String) : HttpResponse T :=
  sendError res 403 message none

/-- Models `sendNotFound` (404). -/
def sendNotFound {T : Type} (res : Res) (message : String) : HttpResponse T :=
  sendError res 404 message none

/-- Models `sendConflict` (409). -/
def sendConflict {T : Type} (res : Res) (message : String)
    (errors : Option (List ApiError)) : HttpResponse T :=
  sendError res 409 message errors

/-- Models `sendValidationError` (422); the errors array argument is required. -/
def sendValidationError {T : Type} (res : Res) (message : String)
    (errors : List ApiError) : HttpResponse T :=
  sendError res 422 message (some errors)

/-- Models `sendInternalError` (500). -/
def sendInternalError {T : Type} (res : Res) (message : String) : HttpResponse T :=
  sendError res 500 message none

/-- A JavaScript value as it appears in a request segment (JSON plus
`undefined`, the value of an absent field). -/
inductive Value where
  | vStr (s : String)
  | vNum (n : JsNum)
  | vBool (b : Bool)
  | vNull
  | vUndef
  | vObj (fields : List (String × Value))
  | vArr (elems : List Value)

/-- The JS `typeof`-style name Zod reports for a received value. -/
def receivedName : Value → String
  | .vStr _ => "string"
  | .vNum .nan => "NaN"
  | .vNum _ => "number"
  | .vBool _ => "boolean"
  | .vNull => "null"
  | .vUndef => "undefined"
  | .vObj _ => "object"
  | .vArr _ => "array"

/-- One Zod issue: a path into the validated value and a message.  The
middleware and the error handler both flatten the path with
`issue.path.join(".")`. -/
structure ZodIssue where
  path : List String
  message : String
deriving DecidableEq, Repr

/-! ### A small regular-expression engine

JS regexes are modelled by a classic regular-expression core (character
classes given as inclusive ranges, concatenation, alternation, Kleene star)
plus two flags recording whether the source pattern was anchored with `^`
and `$`.  `RegExp.prototype.test` searches for a match of the core anywhere
in the string, restricted to start (resp. end) at the string boundary when
the corresponding anchor is present. -/

/-- Regular-expression core (anchor-free). -/
inductive Regex where
  | eps
  | cls (ranges : List (Char × Char))
  | cat (r1 r2 : Regex)
  | alt (r1 r2 : Regex)
  | star (r : Regex)
deriving DecidableEq, Repr

/-- Membership of a character in a class given by inclusive ranges. -/
def inClass (c : Char) (ranges : List (Char × Char)) : Bool :=
  ranges.any (fun p => p.1 ≤ c && c ≤ p.2)

/-- Does the regex accept the empty string? -/
def nullable : Regex → Bool
  | .eps => true
  | .cls _ => false
  | .cat r1 r2 => nullable r1 && nullable r2
  | .alt r1 r2 => nullable r1 || nullable r2
  | .star _ => true

/-- Brzozowski derivative of a regex by a character. -/
def deriv : Regex → Char → Regex
  | .eps, _ => .cls []
  | .cls ranges, c => if inClass c ranges then .eps else .cls []
  | .cat r1 r2, c =>
      if nullable r1 then .alt (.cat (deriv r1 c) r2) (deriv r2 c)
      else .cat (deriv r1 c) r2
  | .alt r1 r2, c => .alt (deriv r1 c) (deriv r2 c)
  | .star r, c => .cat (deriv r c) (.star r)

/-- Does the regex match the whole character list? -/
def fullMatch (r : Regex) (cs : List Char) : Bool :=
  nullable (cs.foldl deriv r)

/-- The regex `r+` is `r r*`. -/
def rplus (r : Regex) : Regex := .cat r (.star r)

/-- A JS regex literal: the anchor-free core plus whether the pattern was
written with a leading `^` and a trailing `$`. -/
structure JsRegex where
  anchorStart : Bool
  anchorEnd : Bool
  core : Regex
deriving DecidableEq, Repr

/-- All prefixes of a character list. -/
def prefixesOf (l : List Char) : List (List Char) :=
  (List.range (l.length + 1)).map (fun n => l.take n)

/-- Models `RegExp.prototype.test`: search for a match anywhere in the string,
honoring the anchors. -/
def jsRegexTest (re : JsRegex) (s : String) : Bool :=
  let cs := s.data
  let starts := if re.anchorStart then [cs] else cs.tails
  starts.any (fun t =>
    if re.anchorEnd then fullMatch re.core t
    else (prefixesOf t).any (fun p => fullMatch re.core p))

/-! ### Zod string / number checks -/

/-- JS `String.prototype.trim` (whitespace stripped from both ends),
defined on the character list. -/
def jsTrim (s : String) : String :=
  ⟨((s.data.dropWhile Char.isWhitespace).reverse.dropWhile
      Char.isWhitespace).reverse⟩

/-- JS `String.prototype.toLowerCase` (ASCII). -/
def jsToLower (s : String) : String := ⟨s.data.map Char.toLower⟩

/-- Zod's cuid check, `/^c[^\s-]\x7b8,\x7d$/i`: a leading `c` (case
insensitive) followed by at least eight characters that are neither
whitespace nor a hyphen. -/
def cuidCheck (s : String) : Bool :=
  match s.data with
  | c :: rest =>
      (c = 'c' || c = 'C') && decide (8 ≤ rest.length) &&
        rest.all (fun ch => !(ch.isWhitespace || ch = '-'))
  | [] => false

/-- One chained check/transform on a Zod string schema, in chaining order. -/
inductive StrCheck where
  | min (n : ℕ) (msg : String)
  | max (n : ℕ) (msg : String)
  | regex (re : JsRegex) (msg : String)
  | cuid (msg : String)
  | trim
  | toLowerCase
deriving DecidableEq, Repr

/-- Run the chained string checks in order, threading the working value
through transforms (`trim`, `toLowerCase`) and collecting every failed
check's message (Zod does not abort on the first failed check). -/
def runStrChecks : List StrCheck → String → String × List String
  | [], s => (s, [])
  | c :: cs, s =>
    match c with
    | .min n msg =>
        let r := runStrChecks cs s
        (r.1, if s.length < n then msg :: r.2 else r.2)
    | .max n msg =>
        let r := runStrChecks cs s
        (r.1, if n < s.length then msg :: r.2 else r.2)
    | .regex re msg =>
        let r := runStrChecks cs s
        (r.1, if jsRegexTest re s then r.2 else msg :: r.2)
    | .cuid msg =>
        let r := runStrChecks cs s
        (r.1, if cuidCheck s then r.2 else msg :: r.2)
    | .trim => runStrChecks cs (jsTrim s)
    | .toLowerCase => runStrChecks cs (jsToLower s)

/-- One chained check on a Zod number schema.  `min`/`max` on numbers are
`gte`/`lte` (inclusive).  `none` messages stand for Zod's defaults. -/
inductive NumCheck where
  | int (msg : Option String)
  | gte (n : ℚ) (msg : Option String)
  | lte (n : ℚ) (msg : Option String)
deriving DecidableEq, Repr

/-- Does a numeric check pass on a JS number? -/
def numCheckPass : NumCheck → JsNum → Bool
  | .int _, x => isIntegerJs x
  | .gte n _, x => numGeB x n
  | .lte n _, x => numLeB x n

/-- The message a failed numeric check reports (Zod v4 default wording when
no custom message was given; no claim depends on the default texts). -/
def numCheckMsg : NumCheck → String
  | .int m => m.getD "Invalid input: expected int, received number"
  | .gte n m => m.getD ("Too small: expected number to be >=" ++ toString n.num)
  | .lte n m => m.getD ("Too big: expected number to be <=" ++ toString n.num)

/-! ### JS number coercion (`Number(value)`) -/

/-- Numeric value of a run of decimal digits. -/
def digitsNat (l : List Char) : ℕ :=
  l.foldl (fun acc c => acc * 10 + (c.toNat - 48)) 0

/-- Parse an unsigned decimal literal `digits [. digits]` or `. digits`
into a numerator/denominator pair.  (Exponents and hex literals are not
modelled; no schema in scope feeds them to `Number`.) -/
def parseUnsigned (l : List Char) : Option (ℤ × ℕ) :=
  let ip := l.takeWhile Char.isDigit
  let rest := l.dropWhile Char.isDigit
  match rest with
  | [] => if ip.isEmpty then none else some ((digitsNat ip : ℤ), 1)
  | '.' :: fp =>
      if fp.all Char.isDigit && !(ip.isEmpty && fp.isEmpty) then
        some (((digitsNat ip * 10 ^ fp.length + digitsNat fp : ℕ) : ℤ),
          10 ^ fp.length)
      else none
  | _ => none

/-- Parse an optionally signed decimal literal to an exact rational. -/
def parseDecimal : List Char → Option ℚ
  | '+' :: rest => (parseUnsigned rest).map (fun p => Rat.divInt p.1 (p.2 : ℤ))
  | '-' :: rest => (parseUnsigned rest).map (fun p => Rat.divInt (-p.1) (p.2 : ℤ))
  | l => (parseUnsigned l).map (fun p => Rat.divInt p.1 (p.2 : ℤ))

/-- JS `Number(string)`: trim, empty means 0, otherwise parse a numeric
literal, `NaN` on failure. -/
def strToNumber (s : String) : JsNum :=
  let t := jsTrim s
  if t = "" then .num 0
  else if t = "Infinity" || t = "+Infinity" then .inf
  else if t = "-Infinity" then .negInf
  else
    match parseDecimal t.data with
    | some q => .num q
    | none => .nan

/-- JS `Number(value)` on a request-segment value.  (For arrays, JS
stringifies first; the one-element case is modelled for numeric contents,
which is the only case reachable through a query string.) -/
def jsToNumber : Value → JsNum
  | .vNum n => n
  | .vStr s => strToNumber s
  | .vBool b => .num (if b then 1 else 0)
  | .vNull => .num 0
  | .vUndef => .nan
  | .vObj _ => .nan
  | .vArr [] => .num 0
  | .vArr [v] => jsToNumber v
  | .vArr _ => .nan

/-! ### Zod schemas and parsing -/

/-- The fragment of Zod used by the validators in scope: string schemas with
chained checks (an optional custom invalid-type message), number schemas
(optionally `z.coerce`), string enums, object schemas (strip by default,
`.passthrough()` when the flag is set) and `.optional()`. -/
inductive Schema where
  | str (typeMsg : Option String) (checks : List StrCheck)
  | number (coe : Bool) (checks : List NumCheck)
  | strEnum (values : List String)
  | obj (shape : List (String × Schema)) (passthrough : Bool)
  | opt (s : Schema)

/-- First binding of a key in an association list (JS object lookup). -/
def lookupKey (pairs : List (String × Value)) (k : String) : Option Value :=
  match pairs with
  | [] => none
  | (k', v) :: rest => if k' = k then some v else lookupKey rest k

/-- Does the object shape declare the key? -/
def shapeHasKey (shape : List (String × Schema)) (k : String) : Bool :=
  shape.any (fun fs => fs.1 == k)

/-- Parse a Zod string schema: non-strings fail the type check (custom
message when one was configured), strings run the chained checks. -/
def parseString (typeMsg : Option String) (checks : List StrCheck)
    (v : Value) : Except (List ZodIssue) Value :=
  match v with
  | .vStr s =>
      let r := runStrChecks checks s
      if r.2.isEmpty then .ok (.vStr r.1)
      else .error (r.2.map (fun m => ⟨[], m⟩))
  | _ =>
      .error [⟨[], typeMsg.getD
        ("Invalid input: expected string, received " ++ receivedName v)⟩]

/-- Parse a Zod number schema; with `z.coerce` the input is first converted
by `Number(...)`.  A NaN result fails the type check. -/
def parseNumber (coe : Bool) (checks : List NumCheck) (v : Value) :
    Except (List ZodIssue) Value :=
  let xo : Option JsNum :=
    if coe then some (jsToNumber v)
    else match v with | .vNum n => some n | _ => none
  match xo with
  | none =>
      .error [⟨[], "Invalid input: expected number, received " ++ receivedName v⟩]
  | some .nan =>
      .error [⟨[], "Invalid input: expected number, received NaN"⟩]
  | some x =>
      let failed := checks.filter (fun c => !numCheckPass c x)
      if failed.isEmpty then .ok (.vNum x)
      else .error (failed.map (fun c => ⟨[], numCheckMsg c⟩))

/-- Zod's message for a rejected enum value. -/
def enumMsg (values : List String) : String :=
  "Invalid option: expected one of " ++
    String.intercalate "|" (values.map (fun s => "\"" ++ s ++ "\""))

/-- Parse a Zod string enum: exact, case-sensitive membership. -/
def parseEnum (values : List String) (v : Value) :
    Except (List ZodIssue) Value :=
  match v with
  | .vStr s =>
      if values.contains s then .ok (.vStr s) else .error [⟨[], enumMsg values⟩]
  | _ => .error [⟨[], enumMsg values⟩]

mutual

/-- Models `schema.parseAsync(value)`: either the coerced output or the full list
of collected issues. -/
def zodParse : Schema → Value → Except (List ZodIssue) Value
  | .str m cks, v => parseString m cks v
  | .number c cks, v => parseNumber c cks v
  | .strEnum vs, v => parseEnum vs v
  | .opt s, v =>
      match v with
      | .vUndef => .ok .vUndef
      | _ => zodParse s v
  | .obj shape pt, v =>
      match v with
      | .vObj pairs =>
          let r := zodParseFields shape pairs
          if r.1.isEmpty then
            .ok (.vObj (r.2 ++
              (if pt then pairs.filter (fun kv => !shapeHasKey shape kv.1)
               else [])))
          else .error r.1
      | _ =>
          .error [⟨[], "Invalid input: expected object, received " ++
            receivedName v⟩]
termination_by structural s _ => s

/-- Parse the declared fields of an object schema in shape order.  Each
field's issues get the key prepended to their path; absent optional fields
are omitted from the output. -/
def zodParseFields :
    List (String × Schema) → List (String × Value) →
      List ZodIssue × List (String × Value)
  | [], _ => ([], [])
  | (k, s) :: rest, pairs =>
      let r := zodParseFields rest pairs
      let rawo := lookupKey pairs k
      match zodParse s (rawo.getD .vUndef) with
      | .ok out =>
          (r.1,
            match out, rawo with
            | .vUndef, none => r.2
            | _, _ => (k, out) :: r.2)
      | .error iss =>
          (iss.map (fun i => ⟨k :: i.path, i.message⟩) ++ r.1, r.2)
termination_by structural shape _ => shape

end

/-! ### The concrete schemas from `src/validators` -/

/-- The character class `[a-z0-9]`. -/
def alnumLower : List (Char × Char) := [('a', 'z'), ('0', '9')]

/-- The slug pattern `/^[a-z0-9]+(?:-[a-z0-9]+)*$/` (anchored both ends). -/
def slugRegex : JsRegex :=
  ⟨true, true,
    .cat (rplus (.cls alnumLower))
      (.star (.cat (.cls [('-', '-')]) (rplus (.cls alnumLower))))⟩

/-- Models `categoryNameSchema`: string, min 1, max 100, then trim. -/
def categoryNameSchema : Schema :=
  .str (some "Name must be a string")
    [.min 1 "Name must not be empty",
     .max 100 "Name must be at most 100 characters long",
     .trim]

/-- Models `categorySlugSchema`: string, min 1, max 100, anchored slug regex, trim. -/
def categorySlugSchema : Schema :=
  .str (some "Slug must be a string")
    [.min 1 "Slug must not be empty",
     .max 100 "Slug must be at most 100 characters long",
     .regex slugRegex "Slug can only contain lowercase letters, numbers, and hyphens",
     .trim]

/-- Models `categoryDescriptionSchema`: optional string, max 500, trim. -/
def categoryDescriptionSchema : Schema :=
  .opt (.str (some "Description must be a string")
    [.max 500 "Description must be at most 500 characters long", .trim])

/-- Models `metaTitleSchema`: optional string, max 60, trim. -/
def metaTitleSchema : Schema :=
  .opt (.str (some "Meta title must be a string")
    [.max 60 "Meta title must be at most 60 characters long", .trim])

/-- Models `metaDescriptionSchema`: optional string, max 160, trim. -/
def metaDescriptionSchema : Schema :=
  .opt (.str (some "Meta description must be a string")
    [.max 160 "Meta description must be at most 160 characters long", .trim])

/-- Models `parentIdSchema`: optional cuid string. -/
def parentIdSchema : Schema :=
  .opt (.str (some "Parent ID must be a string")
    [.cuid "Invalid parent ID format"])

/-- Models `createCategoryValidator`: object schema with `.passthrough()` (extra
FormData fields are allowed through).  The `.optional()` calls in the object
literal wrap the already-optional reusable schemas a second time. -/
def createCategoryValidator : Schema :=
  .obj
    [("name", categoryNameSchema),
     ("slug", categorySlugSchema),
     ("description", .opt categoryDescriptionSchema),
     ("parentId", .opt parentIdSchema),
     ("metaTitle", .opt metaTitleSchema),
     ("metaDescription", .opt metaDescriptionSchema),
     ("orderPosition", .opt (.number true [.int none, .gte 0 none]))]
    true

/-- Models `getCategoriesQueryValidator`: an optional object schema (strip mode)
whose `page`/`limit` fields are coerced integers with inclusive bounds. -/
def getCategoriesQueryValidator : Schema :=
  .opt (.obj
    [("page", .opt (.number true [.int none, .gte 1 none])),
     ("limit", .opt (.number true [.int none, .gte 1 none, .lte 100 none])),
     ("search", .opt (.str none [.trim])),
     ("parentId", .opt (.str none [])),
     ("sortBy", .opt (.strEnum ["name", "orderPosition", "createdAt"])),
     ("sortOrder", .opt (.strEnum ["asc", "desc"]))]
    false)

/-- The password uppercase rule `/[A-Z]/` (unanchored). -/
def upperRegex : JsRegex := ⟨false, false, .cls [('A', 'Z')]⟩

/-- The password lowercase rule `/[a-z]/` (unanchored). -/
def lowerRegex : JsRegex := ⟨false, false, .cls [('a', 'z')]⟩

/-- The password digit rule `/[0-9]/` (unanchored). -/
def digitRegex : JsRegex := ⟨false, false, .cls [('0', '9')]⟩

/-- The password special-character rule (unanchored single class). -/
def specialRegex : JsRegex :=
  ⟨false, false,
    .cls ((("!@#$%^&*()_+-=[];:\"|,.<>/?".data) ++
      [Char.ofNat 123, Char.ofNat 125, Char.ofNat 39]).map (fun c => (c, c)))⟩

/-- Models `passwordSchema` from the auth validators: min length 8 plus four
unanchored content regexes. -/
def passwordSchema : Schema :=
  .str (some "Password must be a string")
    [.min 8 "Password must be at least 8 characters long",
     .regex upperRegex "Password must contain at least one uppercase letter",
     .regex lowerRegex "Password must contain at least one lowercase letter",
     .regex digitRegex "Password must contain at least one number",
     .regex specialRegex "Password must contain at least one special character"]

/-! ### Errors and the global error handler -/

/-- A thrown JS error as the error handler inspects it: its `name`,
`message`, `stack`, plus the evidence for each `instanceof`/shape test the
handler performs.  `appErrorStatusCode` is `some` exactly when the error is
an `instanceof AppError`; `validationErrors` is `some` exactly when it is an
`instanceof ValidationError` (carrying that class's optional errors array);
`zodIssues` is `some` exactly for `instanceof ZodError`. -/
structure JsError where
  name : String
  message : String
  stack : String
  appErrorStatusCode : Option ℤ
  validationErrors : Option (Option (List ApiError))
  zodIssues : Option (List ZodIssue)
  prismaCode : Option String
  prismaMetaTarget : Option (List String)

/-- Models `new ValidationError(message, errors)` from `src/utils/errors.ts`:
an `AppError` with status code 422 carrying the field errors. -/
def mkValidationError (message : String) (errors : List ApiError) : JsError :=
  { name := "Error"
    message := message
    stack := ""
    appErrorStatusCode := some 422
    validationErrors := some (some errors)
    zodIssues := none
    prismaCode := none
    prismaMetaTarget := none }

/-- JS `field.charAt(0).toUpperCase() + field.slice(1)`. -/
def capitalizeFirst (s : String) : String :=
  match s.data with
  | [] => ""
  | c :: cs => ⟨c.toUpper :: cs⟩

/-- JS `a || d` where `a` is an optional string and `d` a default. -/
def strOrD (a : Option String) (d : String) : String :=
  match a with
  | some s => if s = "" then d else s
  | none => d

/-- The error-response body sent by the global error handler.  `stack` and
`error` are the extra keys spread in only in development mode. -/
structure ErrBody where
  success : Bool
  message : String
  errors : Option (List ApiError)
  stack : Option String
  error : Option String
deriving DecidableEq, Repr

/-- Status plus body, as produced by `res.status(...).json(...)`. -/
structure ErrResponse where
  status : ℤ
  body : ErrBody
deriving DecidableEq, Repr

/-- Models `errorHandler` from `src/middlewares/errorHandler.ts`.  `isDev` is
`process.env.NODE_ENV === 'development'`.  Note that the `errors` key is
spread with `...(errors && \x7b errors \x7d)`: it is present whenever the
local variable was assigned (a JS array is truthy even when empty). -/
def errorHandler (isDev : Bool) (err : JsError) : ErrResponse :=
  let r : ℤ × String × Option (List ApiError) :=
    match err.appErrorStatusCode with
    | some sc =>
        (sc, err.message,
          match err.validationErrors with
          | some es => es
          | none => none)
    | none =>
        if err.name = "PrismaClientKnownRequestError" then
          match err.prismaCode with
          | some "P2002" =>
              let fld := strOrD (err.prismaMetaTarget.bind List.head?) "field"
              (400, capitalizeFirst fld ++ " already exists",
                some [⟨fld, "This value is already taken"⟩])
          | some "P2025" => (404, "Resource not found", none)
          | some "P2003" => (400, "Related resource not found", none)
          | some "P2014" => (400, "Invalid relation reference", none)
          | _ => (400, "Database operation failed", none)
        else if err.name = "PrismaClientValidationError" then
          (400, "Invalid data provided", none)
        else
          match err.zodIssues with
          | some issues =>
              (422, "Validation failed",
                some (issues.map (fun i =>
                  ⟨String.intercalate "." i.path, i.message⟩)))
          | none =>
              if err.name = "JsonWebTokenError" then (401, "Invalid token", none)
              else if err.name = "TokenExpiredError" then (401, "Token expired", none)
              else if err.name = "MulterError" then
                (400, "File upload error: " ++ err.message, none)
              else (500, "Internal server error", none)
  { status := r.1
    body :=
      { success := false
        message := r.2.1
        errors := r.2.2
        stack := if isDev then some err.stack else none
        error := if isDev then some err.message else none } }

/-- Is the error one of the classes the handler recognizes (`AppError`,
Prisma, Zod, JWT, Multer)? -/
def recognizedError (err : JsError) : Bool :=
  err.appErrorStatusCode.isSome ||
  err.name == "PrismaClientKnownRequestError" ||
  err.name == "PrismaClientValidationError" ||
  err.zodIssues.isSome ||
  err.name == "JsonWebTokenError" ||
  err.name == "TokenExpiredError" ||
  err.name == "MulterError"

/-! ### The validate middleware -/

/-- The request segment selector passed to `validate`. -/
inductive Source where
  | body
  | query
  | params
deriving DecidableEq, Repr

/-- The mutable request: its three validated segments. -/
structure Request where
  body : Value
  query : Value
  params : Value

/-- Models `req[source]`. -/
def getSeg (req : Request) : Source → Value
  | .body => req.body
  | .query => req.query
  | .params => req.params

/-- Models `req[source] = v` (the in-place mutation, modelled functionally). -/
def setSeg (req : Request) : Source → Value → Request
  | .body, v => { req with body := v }
  | .query, v => { req with query := v }
  | .params, v => { req with params := v }

/-- JS object insertion: assigning an existing key replaces its value in
place, a new key is appended. -/
def jsObjInsert (l : List (String × Value)) (k : String) (v : Value) :
    List (String × Value) :=
  if l.any (fun kv => kv.1 == k) then
    l.map (fun kv => if kv.1 == k then (k, v) else kv)
  else l ++ [(k, v)]

/-- Models `Object.assign(\x7b\x7d, pairs)`: build a JS object from assignments in
order.  This is what the cleared request segment holds after
`Object.assign(target, parsedData)`. -/
def jsObjOfPairs (pairs : List (String × Value)) : List (String × Value) :=
  pairs.foldl (fun acc kv => jsObjInsert acc kv.1 kv.2) []

/-- Index/value pairs of an array, as `Object.assign` sees them. -/
def arrToPairs (vs : List Value) : List (String × Value) :=
  vs.enum.map (fun iv => (toString iv.1, iv.2))

/-- The outcome of running a middleware: either `next()` was called with the
(possibly mutated) request, or `next(err)` short-circuited to the error
chain and the downstream handler never runs. -/
inductive MwOutcome where
  | next (req : Request)
  | failure (err : JsError)

/-- Models `validate(schema, source)` from `src/middlewares/validate.ts` applied to
a request.  On parse failure the Zod issues are flattened to
`\x7bfield: path.join("."), message\x7d` pairs and wrapped in a
`ValidationError("Validation failed", errors)` handed to `next`.  On success,
if the parsed value is object-like (`parsedData && typeof === 'object'`:
objects and arrays, but not `null`/`undefined`), every key of the raw
segment is deleted and the parsed values are assigned in. -/
def validate (schema : Schema) (source : Source) (req : Request) : MwOutcome :=
  match zodParse schema (getSeg req source) with
  | .error issues =>
      .failure (mkValidationError "Validation failed"
        (issues.map (fun i => ⟨String.intercalate "." i.path, i.message⟩)))
  | .ok parsed =>
      match parsed with
      | .vObj pairs => .next (setSeg req source (.vObj (jsObjOfPairs pairs)))
      | .vArr vs =>
          .next (setSeg req source (.vObj (jsObjOfPairs (arrToPairs vs))))
      | _ => .next req

/-- Models `parsedData && typeof parsedData === 'object'`: the condition under
which `validate` rewrites the request segment (objects and arrays; `null`
is falsy and primitives are not objects). -/
def isObjectLike : Value → Bool
  | .vObj _ => true
  | .vArr _ => true
  | _ => false

/-- Does the object hold a binding for the key? -/
def containsKeyB (l : List (String × Value)) (k : String) : Bool :=
  l.any (fun kv => kv.1 == k)

/-- An unrecognized error: a plain `Error` that is not an `AppError`, not a
`ZodError`, and whose `name` matches none of the handler's cases. -/
def genericError : JsError :=
  { name := "Error"
    message := "boom"
    stack := "stacktrace"
    appErrorStatusCode := none
    validationErrors := none
    zodIssues := none
    prismaCode := none
    prismaMetaTarget := none }

mutual

/-- Does a value have the shape a schema declares?  Strings for string
schemas, non-NaN numbers for number schemas, exact members for enums,
`undefined` or a conforming value for optionals; for object schemas every
declared field that is present conforms to its field schema, and in strip
mode every present key is a declared key. -/
def conforms : Schema → Value → Bool
  | .str _ _, v => match v with | .vStr _ => true | _ => false
  | .number _ _, v =>
      match v with
      | .vNum .nan => false
      | .vNum _ => true
      | _ => false
  | .strEnum vs, v => match v with | .vStr s => vs.contains s | _ => false
  | .opt s, v => match v with | .vUndef => true | _ => conforms s v
  | .obj shape pt, v =>
      match v with
      | .vObj pairs =>
          fieldsConform shape pairs &&
            (pt || pairs.all (fun kv => shapeHasKey shape kv.1))
      | _ => false
termination_by structural s _ => s

/-- Each declared field that is present in the object conforms. -/
def fieldsConform : List (String × Schema) → List (String × Value) → Bool
  | [], _ => true
  | (k, s) :: rest, pairs =>
      (match lookupKey pairs k with
       | some v => conforms s v
       | none => true) && fieldsConform rest pairs
termination_by structural shape _ => shape

end

mutual

/-- Well-formedness of a schema: object shapes declare each field name at
most once (the spec's "field names are unique within one rule set"). -/
def wfSchema : Schema → Bool
  | .str _ _ => true
  | .number _ _ => true
  | .strEnum _ => true
  | .opt s => wfSchema s
  | .obj shape _ => wfShape shape
termination_by structural s => s

/-- Well-formedness of an object shape: keys pairwise distinct, field
schemas well-formed. -/
def wfShape : List (String × Schema) → Bool
  | [] => true
  | (k, s) :: rest => !shapeHasKey rest k && wfSchema s && wfShape rest
termination_by structural l => l

end

/-! ## Supporting lemmas -/

theorem ratCeil_eq_ceil (q : ℚ) : ratCeil q = ⌈q⌉ := by
  have h1 : ((-q.num : ℤ) : ℚ) / ((q.den : ℕ) : ℚ) = -q := by
    push_cast
    rw [neg_div, Rat.num_div_den]
  have h2 := Rat.floor_intCast_div_natCast (-q.num) q.den
  rw [h1] at h2
  rw [ratCeil, ← h2, Int.floor_neg, neg_neg]

theorem jsDiv_num (a b : ℚ) (hb : b ≠ 0) :
    jsDiv (.num a) (.num b) = .num (a / b) := by
  have hbnum : (b.num : ℚ) ≠ 0 := by
    exact_mod_cast Rat.num_ne_zero.mpr hb
  have haden : ((a.den : ℕ) : ℚ) ≠ 0 := by
    exact_mod_cast a.den_nz
  have hbden : ((b.den : ℕ) : ℚ) ≠ 0 := by
    exact_mod_cast b.den_nz
  have ha : (a.num : ℚ) = a * a.den := (div_eq_iff haden).mp (Rat.num_div_den a)
  have hbn : (b.num : ℚ) = b * b.den := (div_eq_iff hbden).mp (Rat.num_div_den b)
  simp only [jsDiv, if_neg hb]
  congr 1
  rw [Rat.divInt_eq_div]
  push_cast
  rw [div_eq_div_iff (by exact mul_ne_zero hbnum haden) hb, ha, hbn]
  ring

theorem jsMin_num (a b : ℚ) : jsMin (.num a) (.num b) = .num (min a b) := rfl

theorem jsMax_num (a b : ℚ) : jsMax (.num a) (.num b) = .num (max a b) := rfl

theorem jsLtB_num (a b : ℚ) : jsLtB (.num a) (.num b) = decide (a < b) := rfl

theorem jsOr_num_one (z : ℤ) (hz : 0 ≤ z) :
    jsOr (.num (z : ℚ)) (.num 1) = .num ((max z 1 : ℤ) : ℚ) := by
  rcases eq_or_lt_of_le hz with h0 | hpos
  · rw [jsOr, ← h0]
    norm_num [jsTruthy]
  · have hz1 : max z 1 = z := max_eq_left hpos
    have : jsTruthy (.num (z : ℚ)) = true := by
      simp [jsTruthy]
      exact_mod_cast hpos.ne'
    rw [jsOr, this, if_pos rfl, hz1]

theorem calcPagination_eval (t p l : ℤ) (ht : 0 ≤ t) (hl : 0 < l) :
    calculatePagination (.num (t : ℚ)) (.num (p : ℚ)) (.num (l : ℚ)) =
      { currentPage := .num ((max 1 (min p (max ⌈(t : ℚ) / (l : ℚ)⌉ 1)) : ℤ) : ℚ)
        perPage := .num (l : ℚ)
        totalItems := .num (t : ℚ)
        totalPages := .num ((⌈(t : ℚ) / (l : ℚ)⌉ : ℤ) : ℚ)
        hasNextPage :=
          decide (max 1 (min p (max ⌈(t : ℚ) / (l : ℚ)⌉ 1)) < ⌈(t : ℚ) / (l : ℚ)⌉)
        hasPreviousPage :=
          decide (1 < max 1 (min p (max ⌈(t : ℚ) / (l : ℚ)⌉ 1))) } := by
  have hl0 : (l : ℚ) ≠ 0 := by
    have h := hl.ne'
    exact_mod_cast h
  have hTPnn : 0 ≤ ⌈(t : ℚ) / (l : ℚ)⌉ :=
    Int.ceil_nonneg (div_nonneg (by exact_mod_cast ht) (by exact_mod_cast hl.le))
  have hmin : min (p : ℚ) ((max ⌈(t : ℚ) / (l : ℚ)⌉ 1 : ℤ) : ℚ) =
      ((min p (max ⌈(t : ℚ) / (l : ℚ)⌉ 1) : ℤ) : ℚ) := by norm_cast
  have hmax : max (1 : ℚ) ((min p (max ⌈(t : ℚ) / (l : ℚ)⌉ 1) : ℤ) : ℚ) =
      ((max 1 (min p (max ⌈(t : ℚ) / (l : ℚ)⌉ 1)) : ℤ) : ℚ) := by norm_cast
  simp only [calculatePagination]
  rw [jsDiv_num _ _ hl0]
  simp only [jsCeil, ratCeil_eq_ceil]
  rw [jsOr_num_one _ hTPnn, jsMin_num, hmin, jsMax_num, hmax, jsLtB_num, jsLtB_num]
  congr 1
  · rw [decide_eq_decide]
    exact_mod_cast Iff.rfl
  · rw [decide_eq_decide]
    exact_mod_cast Iff.rfl

/-! ## Claim theorems -/

/-- C3: for every non-negative `totalItems`, every requested `page` and
every positive `limit`, `calculatePagination` returns
`totalPages = ⌈totalItems / limit⌉`, a `currentPage` clamped into
`[1, max(totalPages, 1)]` (the clamp of the requested page),
`hasNextPage = (currentPage < totalPages)` and
`hasPreviousPage = (currentPage > 1)`; in particular
`calculatePagination(25, 3, 10)` returns
`{currentPage: 3, perPage: 10, totalItems: 25, totalPages: 3,
hasNextPage: false, hasPreviousPage: true}`. -/
theorem calculatePagination_clamps_and_flags (t p l : ℤ) (ht : 0 ≤ t)
    (hl : 0 < l) :
    (calculatePagination (.num (t : ℚ)) (.num (p : ℚ)) (.num (l : ℚ))).totalPages =
        .num ((⌈(t : ℚ) / (l : ℚ)⌉ : ℤ) : ℚ) ∧
    (calculatePagination (.num (t : ℚ)) (.num (p : ℚ)) (.num (l : ℚ))).currentPage =
        .num ((max 1 (min p (max ⌈(t : ℚ) / (l : ℚ)⌉ 1)) : ℤ) : ℚ) ∧
    (1 : ℤ) ≤ max 1 (min p (max ⌈(t : ℚ) / (l : ℚ)⌉ 1)) ∧
    max 1 (min p (max ⌈(t : ℚ) / (l : ℚ)⌉ 1)) ≤ max ⌈(t : ℚ) / (l : ℚ)⌉ 1 ∧
    ((calculatePagination (.num (t : ℚ)) (.num (p : ℚ)) (.num (l : ℚ))).hasNextPage = true ↔
        max 1 (min p (max ⌈(t : ℚ) / (l : ℚ)⌉ 1)) < ⌈(t : ℚ) / (l : ℚ)⌉) ∧
    ((calculatePagination (.num (t : ℚ)) (.num (p : ℚ)) (.num (l : ℚ))).hasPreviousPage = true ↔
        1 < max 1 (min p (max ⌈(t : ℚ) / (l : ℚ)⌉ 1))) ∧
    (calculatePagination (.num (t : ℚ)) (.num (p : ℚ)) (.num (l : ℚ))).perPage =
        .num (l : ℚ) ∧
    (calculatePagination (.num (t : ℚ)) (.num (p : ℚ)) (.num (l : ℚ))).totalItems =
        .num (t : ℚ) ∧
    calculatePagination (.num 25) (.num 3) (.num 10) =
      ⟨.num 3, .num 10, .num 25, .num 3, false, true⟩ := by
  rw [calcPagination_eval t p l ht hl]
  refine ⟨rfl, rfl, ?_, ?_, ?_, ?_, rfl, rfl, by decide⟩
  · omega
  · omega
  · exact decide_eq_true_iff
  · exact decide_eq_true_iff

/-- C3 witness: the concrete example scenario from the spec. -/
theorem calculatePagination_clamps_and_flags_witness :
    calculatePagination (.num 25) (.num 3) (.num 10) =
      ⟨.num 3, .num 10, .num 25, .num 3, false, true⟩ :=
  (calculatePagination_clamps_and_flags 25 3 10 (by decide)
    (by decide)).2.2.2.2.2.2.2.2

/-- C4 counterexample: an explicit page size of `0` is neither replaced by
a default nor clamped — `perPage` stays `0` and `totalPages` becomes
`Infinity`, a non-finite field.  (The default `limit = 10` applies only
when the argument is omitted at the call site.) -/
theorem calculatePagination_zero_limit_not_defaulted :
    (calculatePagination (.num 25) (.num 1) (.num 0)).perPage = .num 0 ∧
    (calculatePagination (.num 25) (.num 1) (.num 0)).totalPages = .inf ∧
    isFiniteJs (calculatePagination (.num 25) (.num 1) (.num 0)).totalPages =
      false := by
  decide

/-- C4 (amended): `calculatePagination` never raises (it is a total
function), and for every positive page size it never divides by zero and
every numeric field of the returned metadata is finite.  An invalid
(zero or negative) page size is *not* replaced by a default or clamped:
the division is performed anyway (see the counterexample). -/
theorem calculatePagination_finite_of_pos_limit (t p l : ℤ) (hl : 0 < l) :
    isFiniteJs (calculatePagination (.num (t : ℚ)) (.num (p : ℚ)) (.num (l : ℚ))).currentPage = true ∧
    isFiniteJs (calculatePagination (.num (t : ℚ)) (.num (p : ℚ)) (.num (l : ℚ))).perPage = true ∧
    isFiniteJs (calculatePagination (.num (t : ℚ)) (.num (p : ℚ)) (.num (l : ℚ))).totalItems = true ∧
    isFiniteJs (calculatePagination (.num (t : ℚ)) (.num (p : ℚ)) (.num (l : ℚ))).totalPages = true := by
  have hl0 : (l : ℚ) ≠ 0 := by
    have h := hl.ne'
    exact_mod_cast h
  simp only [calculatePagination, jsDiv_num _ _ hl0, jsCeil]
  cases htr : jsTruthy (.num ((ratCeil ((t : ℚ) / (l : ℚ)) : ℤ) : ℚ)) <;>
    simp [jsOr, htr, jsMin_num, jsMax_num, isFiniteJs]

/-- C4 witness: the amended statement at `totalItems = 25`, `page = 3`,
`limit = 10`. -/
theorem calculatePagination_finite_of_pos_limit_witness :
    isFiniteJs (calculatePagination (.num 25) (.num 3) (.num 10)).currentPage = true ∧
    isFiniteJs (calculatePagination (.num 25) (.num 3) (.num 10)).perPage = true ∧
    isFiniteJs (calculatePagination (.num 25) (.num 3) (.num 10)).totalItems = true ∧
    isFiniteJs (calculatePagination (.num 25) (.num 3) (.num 10)).totalPages = true :=
  calculatePagination_finite_of_pos_limit 25 3 10 (by decide)

/-- C5: every envelope built by the success family (`sendSuccess`,
`sendCreated`, `sendPaginatedSuccess`) has `success = true` and no
`errors` key, and every envelope built by `sendError` and the error family
has `success = false` and no `data` key. -/
theorem envelope_success_error_exclusive {T : Type} (res : Res) (sc : ℤ)
    (msg : String) (d : Option T) (pg : Option PaginationMeta) (x : T)
    (l : List T) (pm : PaginationMeta) (es : Option (List ApiError))
    (ves : List ApiError) :
    ((sendSuccess res sc msg d pg).body.success = true ∧
      (sendSuccess res sc msg d pg).body.errors = none) ∧
    ((sendCreated res msg x).body.success = true ∧
      (sendCreated res msg x).body.errors = none) ∧
    ((sendPaginatedSuccess res msg l pm).body.success = true ∧
      (sendPaginatedSuccess res msg l pm).body.errors = none) ∧
    ((sendError res sc msg es : HttpResponse T).body.success = false ∧
      (sendError res sc msg es : HttpResponse T).body.data = none) ∧
    ((sendBadRequest res msg es : HttpResponse T).body.success = false ∧
      (sendBadRequest res msg es : HttpResponse T).body.data = none) ∧
    ((sendUnauthorized res msg : HttpResponse T).body.success = false ∧
      (sendUnauthorized res msg : HttpResponse T).body.data = none) ∧
    ((sendForbidden res msg : HttpResponse T).body.success = false ∧
      (sendForbidden res msg : HttpResponse T).body.data = none) ∧
    ((sendNotFound res msg : HttpResponse T).body.success = false ∧
      (sendNotFound res msg : HttpResponse T).body.data = none) ∧
    ((sendConflict res msg es : HttpResponse T).body.success = false ∧
      (sendConflict res msg es : HttpResponse T).body.data = none) ∧
    ((sendValidationError res msg ves : HttpResponse T).body.success = false ∧
      (sendValidationError res msg ves : HttpResponse T).body.data = none) ∧
    ((sendInternalError res msg : HttpResponse T).body.success = false ∧
      (sendInternalError res msg : HttpResponse T).body.data = none) := by
  refine ⟨⟨rfl, rfl⟩, ⟨rfl, rfl⟩, ⟨rfl, rfl⟩, ⟨rfl, rfl⟩, ⟨rfl, rfl⟩,
    ⟨rfl, rfl⟩, ⟨rfl, rfl⟩, ⟨rfl, rfl⟩, ⟨rfl, rfl⟩, ⟨rfl, rfl⟩, ⟨rfl, rfl⟩⟩

/-- C9: `sendError` puts an `errors` key in the envelope iff the supplied
list is present and non-empty; in particular `sendValidationError` with an
empty array emits a 422 envelope without an `errors` key. -/
theorem sendError_errors_iff_nonempty {T : Type} (res : Res) (sc : ℤ)
    (msg : String) (es : Option (List ApiError)) :
    ((sendError res sc msg es : HttpResponse T).body.errors ≠ none ↔
      ∃ le, es = some le ∧ le ≠ []) ∧
    ((sendValidationError res msg [] : HttpResponse T).status = 422 ∧
      (sendValidationError res msg [] : HttpResponse T).body.errors = none) := by
  refine ⟨?_, rfl, rfl⟩
  cases es with
  | none => simp [sendError]
  | some le =>
    cases le with
    | nil => simp [sendError]
    | cons a t => simp [sendError]

/-- C8 counterexample: in development mode
(`NODE_ENV === 'development'`) the handler does append the stack trace and
the original error message to the response body, so "the response body
never contains internal detail" is false as a statement about every run of
the code. -/
theorem errorHandler_dev_leaks_detail :
    recognizedError genericError = false ∧
    errorHandler true genericError =
      ⟨500, ⟨false, "Internal server error", none, some "stacktrace",
        some "boom"⟩⟩ := by
  refine ⟨rfl, rfl⟩

/-- C8 (amended): for every error that is not a recognized operational
error, the handler responds 500 with the generic message
`'Internal server error'`, no `errors` key, and — outside development
mode — no stack trace or original error message in the body. -/
theorem errorHandler_unrecognized_is_generic_500 (err : JsError)
    (h : recognizedError err = false) :
    errorHandler false err =
      ⟨500, ⟨false, "Internal server error", none, none, none⟩⟩ := by
  simp only [recognizedError, Bool.or_eq_false_iff] at h
  obtain ⟨⟨⟨⟨⟨⟨happ, hn1⟩, hn2⟩, hzod⟩, hn3⟩, hn4⟩, hn5⟩ := h
  have happ' : err.appErrorStatusCode = none := Option.not_isSome_iff_eq_none.mp (by simp [happ])
  have hzod' : err.zodIssues = none := Option.not_isSome_iff_eq_none.mp (by simp [hzod])
  simp only [errorHandler, happ', hzod']
  rw [if_neg (by simpa using hn1), if_neg (by simpa using hn2),
    if_neg (by simpa using hn3), if_neg (by simpa using hn4),
    if_neg (by simpa using hn5)]
  rfl

/-- C8 witness: the amended statement at the concrete unrecognized error. -/
theorem errorHandler_unrecognized_is_generic_500_witness :
    errorHandler false genericError =
      ⟨500, ⟨false, "Internal server error", none, none, none⟩⟩ :=
  errorHandler_unrecognized_is_generic_500 genericError (by decide)

/-- C1: when the designated segment fails its schema, `validate` hands the
error chain a `ValidationError` with message `'Validation failed'`, status
code 422 and the full flat list of `{field, message}` pairs (field = the
dot-joined issue path); the downstream handler is never called; and the
error handler turns that error into a 422 response carrying the message
and the list. -/
theorem validate_failure_short_circuits (schema : Schema) (source : Source)
    (req : Request) (issues : List ZodIssue) (isDev : Bool)
    (h : zodParse schema (getSeg req source) = .error issues) :
    validate schema source req =
      .failure (mkValidationError "Validation failed"
        (issues.map fun i => ⟨String.intercalate "." i.path, i.message⟩)) ∧
    (∀ req2, validate schema source req ≠ .next req2) ∧
    (mkValidationError "Validation failed"
        (issues.map fun i => ⟨String.intercalate "." i.path, i.message⟩)).appErrorStatusCode
      = some 422 ∧
    (errorHandler isDev (mkValidationError "Validation failed"
        (issues.map fun i => ⟨String.intercalate "." i.path, i.message⟩))).status = 422 ∧
    (errorHandler isDev (mkValidationError "Validation failed"
        (issues.map fun i => ⟨String.intercalate "." i.path, i.message⟩))).body.success
      = false ∧
    (errorHandler isDev (mkValidationError "Validation failed"
        (issues.map fun i => ⟨String.intercalate "." i.path, i.message⟩))).body.message
      = "Validation failed" ∧
    (errorHandler isDev (mkValidationError "Validation failed"
        (issues.map fun i => ⟨String.intercalate "." i.path, i.message⟩))).body.errors
      = some (issues.map fun i => ⟨String.intercalate "." i.path, i.message⟩) := by
  have hv : validate schema source req =
      .failure (mkValidationError "Validation failed"
        (issues.map fun i => ⟨String.intercalate "." i.path, i.message⟩)) := by
    simp [validate, h]
  refine ⟨hv, ?_, rfl, rfl, rfl, rfl, rfl⟩
  intro req2 hc
  rw [hv] at hc
  simp at hc

/-- C1 witness: creating a category with an empty request body fails with
the two missing-field errors and a 422. -/
theorem validate_failure_short_circuits_witness :
    validate createCategoryValidator .body ⟨.vObj [], .vObj [], .vObj []⟩ =
      .failure (mkValidationError "Validation failed"
        [⟨"name", "Name must be a string"⟩, ⟨"slug", "Slug must be a string"⟩]) ∧
    (errorHandler false (mkValidationError "Validation failed"
        [⟨"name", "Name must be a string"⟩,
         ⟨"slug", "Slug must be a string"⟩])).status = 422 := by
  have h := validate_failure_short_circuits createCategoryValidator .body
      ⟨.vObj [], .vObj [], .vObj []⟩
      [⟨["name"], "Name must be a string"⟩, ⟨["slug"], "Slug must be a string"⟩]
      false rfl
  exact ⟨h.1, h.2.2.2.1⟩

/-- C10: when the schema parse succeeds but produces a value that is not
object-like (for example an optional whole-segment schema parsing an absent
segment to `undefined`), `validate` leaves the request unchanged and still
calls the next handler. -/
theorem validate_nonobject_leaves_request (schema : Schema) (source : Source)
    (req : Request) (out : Value)
    (h : zodParse schema (getSeg req source) = .ok out)
    (hno : isObjectLike out = false) :
    validate schema source req = .next req := by
  cases out <;> simp_all [validate, isObjectLike]

/-- C10 witness: the optional category list-query schema parses an absent
(`undefined`) query segment to `undefined` and the request passes through
untouched. -/
theorem validate_nonobject_leaves_request_witness :
    validate getCategoriesQueryValidator .query ⟨.vObj [], .vUndef, .vObj []⟩ =
      .next ⟨.vObj [], .vUndef, .vObj []⟩ :=
  validate_nonobject_leaves_request getCategoriesQueryValidator .query
    ⟨.vObj [], .vUndef, .vObj []⟩ .vUndef rfl rfl

theorem containsKeyB_map_replace (l : List (String × Value)) (k k' : String)
    (v : Value) :
    containsKeyB (l.map (fun kv => if kv.1 == k then (k, v) else kv)) k' =
      containsKeyB l k' := by
  induction l with
  | nil => rfl
  | cons a rest ih =>
    simp only [containsKeyB, List.map_cons, List.any_cons] at *
    by_cases ha : (a.1 == k) = true
    · have hak : a.1 = k := beq_iff_eq.mp ha
      rw [if_pos ha, ih, hak]
    · rw [if_neg ha, ih]

theorem containsKeyB_jsObjInsert (l : List (String × Value)) (k k' : String)
    (v : Value) :
    containsKeyB (jsObjInsert l k v) k' = (containsKeyB l k' || (k == k')) := by
  unfold jsObjInsert
  by_cases hmem : l.any (fun kv => kv.1 == k) = true
  · rw [if_pos hmem, containsKeyB_map_replace]
    by_cases hk : (k == k') = true
    · have hkk : k = k' := beq_iff_eq.mp hk
      subst hkk
      rw [hk, Bool.or_true]
      exact hmem
    · rw [Bool.eq_false_iff.mpr hk, Bool.or_false]
  · rw [if_neg hmem]
    simp [containsKeyB, List.any_append]

theorem containsKeyB_jsObjOfPairs (pairs : List (String × Value)) (k : String) :
    containsKeyB (jsObjOfPairs pairs) k = containsKeyB pairs k := by
  suffices h : ∀ acc,
      containsKeyB (pairs.foldl (fun acc kv => jsObjInsert acc kv.1 kv.2) acc) k =
        (containsKeyB acc k || containsKeyB pairs k) by
    simpa [containsKeyB] using h []
  induction pairs with
  | nil => intro acc; simp [containsKeyB]
  | cons a rest ih =>
    intro acc
    simp only [List.foldl_cons]
    rw [ih (jsObjInsert acc a.1 a.2), containsKeyB_jsObjInsert]
    simp [containsKeyB, List.any_cons, Bool.or_assoc]

theorem zodParse_obj_ok (shape : List (String × Schema)) (pt : Bool)
    (pairs out : List (String × Value))
    (h : zodParse (.obj shape pt) (.vObj pairs) = .ok (.vObj out)) :
    (zodParseFields shape pairs).1 = [] ∧
    out = (zodParseFields shape pairs).2 ++
      (if pt then pairs.filter (fun kv => !shapeHasKey shape kv.1) else []) := by
  simp only [zodParse] at h
  by_cases he : (zodParseFields shape pairs).1.isEmpty
  · rw [if_pos he] at h
    refine ⟨List.isEmpty_iff.mp he, ?_⟩
    have := Except.ok.inj h
    exact (Value.vObj.inj this).symm
  · rw [if_neg he] at h
    exact absurd h (by simp)

theorem zodParseFields_snd_cases (k0 : String) (s : Schema)
    (rest : List (String × Schema)) (pairs : List (String × Value)) :
    (zodParseFields ((k0, s) :: rest) pairs).2 = (zodParseFields rest pairs).2 ∨
    ∃ out0, (zodParseFields ((k0, s) :: rest) pairs).2 =
      (k0, out0) :: (zodParseFields rest pairs).2 := by
  simp only [zodParseFields]
  cases zodParse s ((lookupKey pairs k0).getD .vUndef) with
  | error iss => left; rfl
  | ok out0 =>
    cases out0 <;> cases lookupKey pairs k0 <;>
      first
        | (left; rfl)
        | (right; exact ⟨_, rfl⟩)

theorem zodParseFields_keys_subset (shape : List (String × Schema))
    (pairs : List (String × Value)) (k : String)
    (h : containsKeyB (zodParseFields shape pairs).2 k = true) :
    shapeHasKey shape k = true := by
  induction shape with
  | nil => simp [zodParseFields, containsKeyB] at h
  | cons a rest ih =>
    obtain ⟨k0, s⟩ := a
    rcases zodParseFields_snd_cases k0 s rest pairs with hc | ⟨out0, hc⟩
    · rw [hc] at h
      show ((k0 == k) || shapeHasKey rest k) = true
      rw [ih h, Bool.or_true]
    · rw [hc] at h
      simp only [containsKeyB, List.any_cons] at h
      show ((k0 == k) || shapeHasKey rest k) = true
      rcases Bool.or_eq_true_iff.mp h with h1 | h1
      · rw [h1, Bool.true_or]
      · rw [ih h1, Bool.or_true]

/-- C2: on a successful parse producing an object, `validate` replaces the
segment in place with exactly the parsed result: the new segment is the
parsed object (its key set is exactly the parsed key set), every raw key
absent from the parsed output is gone; a strip-mode object schema admits
only declared keys in its output, while a `.passthrough()` schema lets
every undeclared raw field survive into the parsed output. -/
theorem validate_replaces_segment_exactly :
    (∀ (schema : Schema) (source : Source) (req : Request)
        (pairs : List (String × Value)),
      zodParse schema (getSeg req source) = .ok (.vObj pairs) →
      validate schema source req =
        .next (setSeg req source (.vObj (jsObjOfPairs pairs))) ∧
      ∀ k, containsKeyB (jsObjOfPairs pairs) k = containsKeyB pairs k) ∧
    (∀ (shape : List (String × Schema)) (pairs out : List (String × Value)),
      zodParse (.obj shape false) (.vObj pairs) = .ok (.vObj out) →
      ∀ k, containsKeyB out k = true → shapeHasKey shape k = true) ∧
    (∀ (shape : List (String × Schema)) (pairs out : List (String × Value)),
      zodParse (.obj shape true) (.vObj pairs) = .ok (.vObj out) →
      ∀ k v, (k, v) ∈ pairs → shapeHasKey shape k = false → (k, v) ∈ out) := by
  refine ⟨?_, ?_, ?_⟩
  · intro schema source req pairs h
    exact ⟨by simp [validate, h], fun k => containsKeyB_jsObjOfPairs pairs k⟩
  · intro shape pairs out h k hk
    obtain ⟨h1, h2⟩ := zodParse_obj_ok shape false pairs out h
    rw [h2] at hk
    simp only [if_neg (by simp : ¬false = true), List.append_nil] at hk
    exact zodParseFields_keys_subset shape pairs k hk
  · intro shape pairs out h k v hm hns
    obtain ⟨h1, h2⟩ := zodParse_obj_ok shape true pairs out h
    rw [h2]
    refine List.mem_append.mpr (Or.inr ?_)
    refine List.mem_filter.mpr ⟨hm, ?_⟩
    simp [hns]

/-- C2 witness: a multipart-style category-creation body with an extra
`icon` field passes the `.passthrough()` schema, and the body is replaced
by the parsed object in which the extra field survives. -/
theorem validate_replaces_segment_exactly_witness :
    validate createCategoryValidator .body
      ⟨.vObj [("name", .vStr "Tech"), ("slug", .vStr "tech"),
        ("icon", .vStr "x")], .vObj [], .vObj []⟩ =
      .next ⟨.vObj [("name", .vStr "Tech"), ("slug", .vStr "tech"),
        ("icon", .vStr "x")], .vObj [], .vObj []⟩ := by
  have h := (validate_replaces_segment_exactly.1 createCategoryValidator .body
      ⟨.vObj [("name", .vStr "Tech"), ("slug", .vStr "tech"),
        ("icon", .vStr "x")], .vObj [], .vObj []⟩
      [("name", .vStr "Tech"), ("slug", .vStr "tech"), ("icon", .vStr "x")]
      rfl).1
  exact h


theorem lookupKey_eq_none_of_not_contains (l : List (String × Value)) (k : String)
    (h : containsKeyB l k = false) : lookupKey l k = none := by
  induction l with
  | nil => rfl
  | cons a rest ih =>
    simp only [containsKeyB, List.any_cons, Bool.or_eq_false_iff] at h
    obtain ⟨h1, h2⟩ := h
    simp only [lookupKey]
    rw [if_neg (by exact beq_eq_false_iff_ne.mp h1)]
    exact ih h2

theorem lookupKey_append (a b : List (String × Value)) (k : String) :
    lookupKey (a ++ b) k =
      (match lookupKey a k with
       | some v => some v
       | none => lookupKey b k) := by
  induction a with
  | nil => rfl
  | cons x rest ih =>
    simp only [List.cons_append, lookupKey, List.append_eq]
    by_cases hx : x.1 = k
    · rw [if_pos hx, if_pos hx]
    · rw [if_neg hx, if_neg hx, ih]

theorem lookupKey_filter_excluded (shape : List (String × Schema))
    (pairs : List (String × Value)) (k : String)
    (h : shapeHasKey shape k = true) :
    lookupKey (pairs.filter fun kv => !shapeHasKey shape kv.1) k = none := by
  apply lookupKey_eq_none_of_not_contains
  rw [Bool.eq_false_iff]
  intro hc
  obtain ⟨kv, hmem, hbeq⟩ := List.any_eq_true.mp hc
  have hpred := (List.mem_filter.mp hmem).2
  have hk : kv.1 = k := beq_iff_eq.mp hbeq
  rw [hk, h] at hpred
  simp at hpred

theorem fieldsConform_congr (shape : List (String × Schema))
    (l l' : List (String × Value))
    (hl : ∀ k, shapeHasKey shape k = true → lookupKey l' k = lookupKey l k) :
    fieldsConform shape l' = fieldsConform shape l := by
  induction shape with
  | nil => rfl
  | cons a rest ih =>
    obtain ⟨k0, s⟩ := a
    simp only [fieldsConform]
    have h0 : lookupKey l' k0 = lookupKey l k0 := by
      refine hl k0 ?_
      show ((k0 == k0) || shapeHasKey rest k0) = true
      simp
    rw [h0, ih (fun k hk => hl k (by
      show ((k0 == k) || shapeHasKey rest k) = true
      rw [hk, Bool.or_true]))]

theorem zodParseFields_cons_error (k0 : String) (s : Schema)
    (rest : List (String × Schema)) (pairs : List (String × Value))
    (iss : List ZodIssue)
    (hp : zodParse s ((lookupKey pairs k0).getD .vUndef) = .error iss) :
    (zodParseFields ((k0, s) :: rest) pairs).1 =
      iss.map (fun i => ⟨k0 :: i.path, i.message⟩) ++
        (zodParseFields rest pairs).1 ∧
    (zodParseFields ((k0, s) :: rest) pairs).2 =
      (zodParseFields rest pairs).2 := by
  simp only [zodParseFields, hp]
  exact ⟨trivial, trivial⟩

theorem zodParseFields_cons_ok (k0 : String) (s : Schema)
    (rest : List (String × Schema)) (pairs : List (String × Value))
    (out0 : Value)
    (hp : zodParse s ((lookupKey pairs k0).getD .vUndef) = .ok out0) :
    (zodParseFields ((k0, s) :: rest) pairs).1 =
      (zodParseFields rest pairs).1 ∧
    ((zodParseFields ((k0, s) :: rest) pairs).2 =
        (k0, out0) :: (zodParseFields rest pairs).2 ∨
      (zodParseFields ((k0, s) :: rest) pairs).2 =
        (zodParseFields rest pairs).2) := by
  simp only [zodParseFields, hp]
  refine ⟨trivial, ?_⟩
  cases out0 <;> cases lookupKey pairs k0 <;> simp



mutual

theorem zodParse_sound : ∀ (s : Schema) (v out : Value), wfSchema s = true →
    zodParse s v = .ok out → conforms s out = true
  | .str m cks, v, out, _, h => by
      cases v <;> simp only [zodParse, parseString] at h
      case vStr s0 =>
        by_cases he : (runStrChecks cks s0).2.isEmpty
        · rw [if_pos he] at h
          have h2 := Except.ok.inj h
          rw [← h2]
          rfl
        · rw [if_neg he] at h
          exact absurd h (by simp)
      all_goals exact absurd h (by simp)
  | .number c cks, v, out, _, h => by
      simp only [zodParse, parseNumber] at h
      split at h
      · exact absurd h (by simp)
      · exact absurd h (by simp)
      · split at h
        · rename_i y hynn hscrut hcond
          have h2 := Except.ok.inj h
          rw [← h2]
          cases y with
          | nan => exact absurd rfl hynn
          | num q => rfl
          | inf => rfl
          | negInf => rfl
        · exact absurd h (by simp)
  | .strEnum vs, v, out, _, h => by
      cases v <;> simp only [zodParse, parseEnum] at h
      case vStr s0 =>
        by_cases hm : vs.contains s0
        · rw [if_pos hm] at h
          have h2 := Except.ok.inj h
          rw [← h2]
          show vs.contains s0 = true
          exact hm
        · rw [if_neg hm] at h
          exact absurd h (by simp)
      all_goals exact absurd h (by simp)
  | .opt s, v, out, hwf, h => by
      have hwfs : wfSchema s = true := hwf
      cases v with
      | vUndef =>
        simp only [zodParse] at h
        have h2 := Except.ok.inj h
        rw [← h2]
        rfl
      | vStr s0 =>
        have := zodParse_sound s (.vStr s0) out hwfs h
        cases out <;> first | rfl | exact this
      | vNum n =>
        have := zodParse_sound s (.vNum n) out hwfs h
        cases out <;> first | rfl | exact this
      | vBool b =>
        have := zodParse_sound s (.vBool b) out hwfs h
        cases out <;> first | rfl | exact this
      | vNull =>
        have := zodParse_sound s .vNull out hwfs h
        cases out <;> first | rfl | exact this
      | vObj pairs =>
        have := zodParse_sound s (.vObj pairs) out hwfs h
        cases out <;> first | rfl | exact this
      | vArr vs2 =>
        have := zodParse_sound s (.vArr vs2) out hwfs h
        cases out <;> first | rfl | exact this
  | .obj shape pt, v, out, hwf, h => by
      have hwfs : wfShape shape = true := hwf
      cases v <;> simp only [zodParse] at h
      case vObj pairs =>
        by_cases he : (zodParseFields shape pairs).1.isEmpty
        · rw [if_pos he] at h
          have hempty : (zodParseFields shape pairs).1 = [] :=
            List.isEmpty_iff.mp he
          have h2 := Except.ok.inj h
          rw [← h2]
          have hfc : fieldsConform shape (zodParseFields shape pairs).2 = true :=
            zodParseFields_sound shape pairs hwfs hempty
          cases pt with
          | true =>
            show (fieldsConform shape ((zodParseFields shape pairs).2 ++
                (if (true : Bool) = true then
                  pairs.filter (fun kv => !shapeHasKey shape kv.1) else [])) &&
              (true || _)) = true
            rw [if_pos rfl]
            have hcongr : fieldsConform shape ((zodParseFields shape pairs).2 ++
                pairs.filter (fun kv => !shapeHasKey shape kv.1)) =
                fieldsConform shape (zodParseFields shape pairs).2 := by
              apply fieldsConform_congr
              intro k hk
              rw [lookupKey_append]
              cases hlk : lookupKey (zodParseFields shape pairs).2 k with
              | some w => rfl
              | none => exact lookupKey_filter_excluded shape pairs k hk
            rw [hcongr, hfc, Bool.true_and, Bool.true_or]
          | false =>
            have hnil : ((zodParseFields shape pairs).2 ++
                (if (false : Bool) = true then
                  pairs.filter (fun kv => !shapeHasKey shape kv.1) else [])) =
                (zodParseFields shape pairs).2 := by
              rw [if_neg (by simp), List.append_nil]
            show (fieldsConform shape ((zodParseFields shape pairs).2 ++
                (if (false : Bool) = true then
                  pairs.filter (fun kv => !shapeHasKey shape kv.1) else [])) &&
              (false || ((zodParseFields shape pairs).2 ++
                (if (false : Bool) = true then
                  pairs.filter (fun kv => !shapeHasKey shape kv.1) else [])).all
                  (fun kv => shapeHasKey shape kv.1))) = true
            rw [hnil, hfc, Bool.true_and, Bool.false_or, List.all_eq_true]
            intro kv hkv
            apply zodParseFields_keys_subset shape pairs
            rw [containsKeyB, List.any_eq_true]
            exact ⟨kv, hkv, by simp⟩
        · rw [if_neg he] at h
          exact absurd h (by simp)
      all_goals exact absurd h (by simp)

theorem zodParseFields_sound : ∀ (shape : List (String × Schema))
    (pairs : List (String × Value)), wfShape shape = true →
    (zodParseFields shape pairs).1 = [] →
    fieldsConform shape (zodParseFields shape pairs).2 = true
  | [], _, _, _ => rfl
  | (k0, s) :: rest, pairs, hwf, hempty => by
      have hw : (!shapeHasKey rest k0 && wfSchema s && wfShape rest) = true := hwf
      simp only [Bool.and_eq_true] at hw
      obtain ⟨⟨hk0, hs⟩, hrest⟩ := hw
      have hk0' : shapeHasKey rest k0 = false := by
        cases hsk : shapeHasKey rest k0
        · rfl
        · rw [hsk] at hk0; simp at hk0
      have hnone : lookupKey (zodParseFields rest pairs).2 k0 = none := by
        apply lookupKey_eq_none_of_not_contains
        cases hcc : containsKeyB (zodParseFields rest pairs).2 k0
        · rfl
        · exact absurd (zodParseFields_keys_subset rest pairs k0 hcc)
            (by rw [hk0']; simp)
      cases hp : zodParse s ((lookupKey pairs k0).getD .vUndef) with
      | error iss =>
        obtain ⟨h1, h2⟩ := zodParseFields_cons_error k0 s rest pairs iss hp
        rw [h1] at hempty
        have hiss : (zodParseFields rest pairs).1 = [] :=
          (List.append_eq_nil.mp hempty).2
        rw [h2]
        show ((match lookupKey (zodParseFields rest pairs).2 k0 with
          | some v => conforms s v
          | none => true) &&
          fieldsConform rest (zodParseFields rest pairs).2) = true
        rw [hnone]
        show (true && fieldsConform rest (zodParseFields rest pairs).2) = true
        rw [Bool.true_and]
        exact zodParseFields_sound rest pairs hrest hiss
      | ok out0 =>
        obtain ⟨h1, h2⟩ := zodParseFields_cons_ok k0 s rest pairs out0 hp
        rw [h1] at hempty
        have hfcrest : fieldsConform rest (zodParseFields rest pairs).2 = true :=
          zodParseFields_sound rest pairs hrest hempty
        rcases h2 with h2 | h2 <;> rw [h2]
        · show ((match lookupKey ((k0, out0) :: (zodParseFields rest pairs).2) k0 with
            | some v => conforms s v
            | none => true) &&
            fieldsConform rest ((k0, out0) :: (zodParseFields rest pairs).2)) = true
          have hl : lookupKey ((k0, out0) :: (zodParseFields rest pairs).2) k0 =
              some out0 := by
            simp [lookupKey]
          rw [hl]
          show (conforms s out0 &&
            fieldsConform rest ((k0, out0) :: (zodParseFields rest pairs).2)) = true
          have hcon : conforms s out0 = true := zodParse_sound s _ out0 hs hp
          have hcongr : fieldsConform rest ((k0, out0) ::
              (zodParseFields rest pairs).2) =
              fieldsConform rest (zodParseFields rest pairs).2 := by
            apply fieldsConform_congr
            intro k hk
            have hne : k0 ≠ k := by
              intro he
              rw [he] at hk0'
              rw [hk] at hk0'
              simp at hk0'
            show lookupKey ((k0, out0) :: (zodParseFields rest pairs).2) k =
              lookupKey (zodParseFields rest pairs).2 k
            simp only [lookupKey]
            rw [if_neg hne]
          rw [hcon, hcongr]
          rw [Bool.true_and]
          exact hfcrest
        · show ((match lookupKey (zodParseFields rest pairs).2 k0 with
            | some v => conforms s v
            | none => true) &&
            fieldsConform rest (zodParseFields rest pairs).2) = true
          rw [hnone]
          show (true && fieldsConform rest (zodParseFields rest pairs).2) = true
          rw [Bool.true_and]
          exact hfcrest

end



/-- C6: for every input that a well-formed schema accepts, the parse
returns the coerced value with zero errors and every field of the output
has the schema's declared type (soundness of parsing with respect to the
declared types); in particular the query `{page: "2", limit: "10"}`
against the category list-query schema parses to the numbers
`{page: 2, limit: 10}` with zero errors. -/
theorem valid_input_coerces_with_zero_errors :
    (∀ (s : Schema) (v out : Value), wfSchema s = true →
      zodParse s v = .ok out → conforms s out = true) ∧
    zodParse getCategoriesQueryValidator
      (.vObj [("page", .vStr "2"), ("limit", .vStr "10")]) =
      .ok (.vObj [("page", .vNum (.num 2)), ("limit", .vNum (.num 10))]) :=
  ⟨fun s v out hwf h => zodParse_sound s v out hwf h, rfl⟩

/-- C6 witness: the soundness statement applied to the concrete
list-categories query. -/
theorem valid_input_coerces_with_zero_errors_witness :
    conforms getCategoriesQueryValidator
      (.vObj [("page", .vNum (.num 2)), ("limit", .vNum (.num 10))]) = true :=
  valid_input_coerces_with_zero_errors.1 getCategoriesQueryValidator
    (.vObj [("page", .vStr "2"), ("limit", .vStr "10")]) _ rfl rfl


theorem mem_prefixesOf (t p : List Char) : p ∈ prefixesOf t ↔ p <+: t := by
  simp only [prefixesOf, List.mem_map, List.mem_range]
  constructor
  · rintro ⟨n, hn, rfl⟩
    exact List.take_prefix n t
  · intro hp
    refine ⟨p.length, ?_, (List.prefix_iff_eq_take.mp hp).symm⟩
    have := hp.length_le
    omega

theorem jsRegexTest_anchored (core : Regex) (s : String) :
    jsRegexTest ⟨true, true, core⟩ s = fullMatch core s.data := by
  simp [jsRegexTest]

theorem jsRegexTest_unanchored_iff (core : Regex) (s : String) :
    jsRegexTest ⟨false, false, core⟩ s = true ↔
      ∃ pre mid suf, s.data = pre ++ mid ++ suf ∧ fullMatch core mid = true := by
  simp only [jsRegexTest, Bool.false_eq_true, if_false, List.any_eq_true]
  constructor
  · rintro ⟨t, ht, p, hp, hfm⟩
    obtain ⟨pre, hpre⟩ := (List.mem_tails _ _).mp ht
    obtain ⟨suf, hsuf⟩ := (mem_prefixesOf t p).mp hp
    exact ⟨pre, p, suf, by rw [← hpre, ← hsuf, List.append_assoc], hfm⟩
  · rintro ⟨pre, mid, suf, hdecomp, hfm⟩
    refine ⟨mid ++ suf, ?_, mid, ?_, hfm⟩
    · exact (List.mem_tails _ _).mpr ⟨pre, by rw [← List.append_assoc, ← hdecomp]⟩
    · exact (mem_prefixesOf (mid ++ suf) mid).mpr ⟨suf, rfl⟩

theorem strCheck_regex_passes (re : JsRegex) (msg s : String) :
    (runStrChecks [.regex re msg] s).2 = [] ↔ jsRegexTest re s = true := by
  cases h : jsRegexTest re s <;> simp [runStrChecks, h]

/-- C7 counterexample: the password uppercase rule `/[A-Z]/` accepts
`"aA1!bcde"` — the whole password schema parses it successfully — although
the regular expression does not match the entire field value, only the
proper substring `"A"`; so "a pattern rule accepts a value only if the
regex matches the entire value" is false for this code. -/
theorem password_regex_accepts_substring_match :
    zodParse passwordSchema (.vStr "aA1!bcde") = .ok (.vStr "aA1!bcde") ∧
    fullMatch upperRegex.core ("aA1!bcde".data) = false ∧
    jsRegexTest upperRegex "aA1!bcde" = true :=
  ⟨rfl, rfl, rfl⟩

/-- C7 (amended): numeric `min`/`max` bounds are inclusive (`>=`/`<=`),
enum membership is an exact case-sensitive string comparison, and a
pattern rule accepts a field value iff the regular expression matches
*somewhere inside* the value (JS `RegExp.test` substring search); a
pattern anchored with both `^` and `$` — as the slug and username
patterns are — accepts exactly the entire-value matches. -/
theorem validation_rule_semantics :
    (∀ (n q : ℚ) (m : Option String),
        numCheckPass (.gte n m) (.num q) = true ↔ n ≤ q) ∧
    (∀ (n q : ℚ) (m : Option String),
        numCheckPass (.lte n m) (.num q) = true ↔ q ≤ n) ∧
    (∀ (vs : List String) (s0 : String),
        zodParse (.strEnum vs) (.vStr s0) = .ok (.vStr s0) ↔
          vs.contains s0 = true) ∧
    zodParse (.strEnum ["asc", "desc"]) (.vStr "ASC") =
      .error [⟨[], enumMsg ["asc", "desc"]⟩] ∧
    (∀ (re : JsRegex) (msg s : String),
        (runStrChecks [.regex re msg] s).2 = [] ↔ jsRegexTest re s = true) ∧
    (∀ (core : Regex) (s : String),
        jsRegexTest ⟨true, true, core⟩ s = fullMatch core s.data) ∧
    (∀ (core : Regex) (s : String),
        jsRegexTest ⟨false, false, core⟩ s = true ↔
          ∃ pre mid suf, s.data = pre ++ mid ++ suf ∧
            fullMatch core mid = true) := by
  refine ⟨?_, ?_, ?_, rfl, strCheck_regex_passes, jsRegexTest_anchored,
    jsRegexTest_unanchored_iff⟩
  · intro n q m
    simp [numCheckPass, numGeB]
  · intro n q m
    simp [numCheckPass, numLeB]
  · intro vs s0
    have hz : zodParse (.strEnum vs) (.vStr s0) = parseEnum vs (.vStr s0) := rfl
    constructor
    · intro h
      rw [hz] at h
      cases hm : vs.contains s0
      · rw [parseEnum, if_neg (by rw [hm]; exact Bool.false_ne_true)] at h
        exact absurd h (by simp)
      · rfl
    · intro h
      rw [hz, parseEnum, if_pos h]

/-- C7 witness: the inclusive lower bound accepts the boundary value. -/
theorem validation_rule_semantics_witness :
    numCheckPass (.gte 1 none) (.num 1) = true :=
  (validation_rule_semantics.1 1 1 none).mpr le_rfl


end Srv
